import Mathlib

/-!
# mongodb-test-harness: producer / insert-worker pipeline

A shallow embedding of `cmd/mongo-test.go` (functions `render`, `pushMetrics`,
`main`, `generateDocuments`, `makeRequest`) and of `randomInteger` from
`pkg/templates/parser.go`.

The goroutines are embedded as an interleaving transition system: every Go
statement that touches shared state is one atomic step of the goroutine that
executes it, and a schedule (a list of `Action`s) chooses which goroutine moves
next (`render` is two steps: the call of `templates.RenderTemplate` and the
observation of its duration). External collaborators (template rendering,
JSON decoding, the push gateway, wall-clock time) are inputs collected in
`Env`, or the `tick` action.
-/

namespace MongoTestHarness

/-! ## External collaborators and constants -/

/-- External collaborators and start-up constants of one run.
`renderTemplate k` is the result of the `k`-th call (counted from 0) of
`templates.RenderTemplate`, `renderNanos k` its measured duration,
`unmarshalJSON` is `mgoBSON.UnmarshalJSON`, `pusherAdd` is the error returned by
`pusher.Add()` if any. `workers` is the bound of the spawn loop in `main` (10),
`capacity` the buffer size of `templateChan` (1), `budget` the argument of
`time.After` in `makeRequest` (30 seconds, in nanoseconds). -/
structure Env where
  renderTemplate : Nat → Except String String
  renderNanos : Nat → Nat
  unmarshalJSON : String → Except String String
  pusherAdd : Option String
  workers : Nat
  capacity : Nat
  budget : Nat

/-- The constants written in `main` and `makeRequest`: 10 workers, a channel of
capacity 1, a 30 second timer. -/
def mainEnv (renderTemplate : Nat → Except String String) (renderNanos : Nat → Nat)
    (unmarshalJSON : String → Except String String) (pusherAdd : Option String) : Env :=
  { renderTemplate := renderTemplate
    renderNanos := renderNanos
    unmarshalJSON := unmarshalJSON
    pusherAdd := pusherAdd
    workers := 10
    capacity := 1
    budget := 30 * 1000000000 }

/-! ## State -/

/-- Program counter of the goroutine running `generateDocuments`. -/
inductive ProducerPC where
  | unspawned
  | poll
  | render
  | observe (tpl : String)
  | send (tpl : String)
  | incr
  | returned
  deriving DecidableEq

/-- Local state of `generateDocuments`: program counter and `count`. -/
structure Producer where
  pc : ProducerPC
  count : Nat
  deriving DecidableEq

/-- Program counter of a goroutine running `makeRequest`. -/
inductive WorkerPC where
  | start
  | recv
  | decode
  | loop
  | inc
  | insert
  | done
  deriving DecidableEq

/-- Local state of one `makeRequest` goroutine. `timeout` is the instant at
which the channel returned by `time.After` becomes ready (`none` before the
timer exists); `newCount`, `oldCount`, `tpl`, `document` are the Go locals.
The remaining fields are history variables: `recvd` lists the payloads
received from the queue, `inserts` the values of `document` passed to
`InsertOne`, `incs` counts this goroutine's calls of `requestCount.Inc()`,
`doneCalls` its calls of `waitGroup.Done()`. -/
structure Worker where
  pc : WorkerPC
  timeout : Option Nat
  newCount : Nat
  oldCount : Nat
  tpl : String
  document : Option String
  recvd : List String
  inserts : List (Option String)
  incs : Nat
  doneCalls : Nat
  deriving DecidableEq

/-- Program counter of `main` from line 88 on (`i` is the loop variable). -/
inductive MainPC where
  | spawnProducer
  | spawnWorkers (i : Nat)
  | wait
  | pushMetrics
  | exited
  deriving DecidableEq

/-- Whole-process state. `now` is the wall clock (nanoseconds); `tplChan` is
the buffer of `templateChan`; `exitChan` lists the values offered by senders
blocked on the unbuffered `exitChan`; `renderLatency` lists the observations of
the histogram; `requestCount` is the counter; `wg` is the wait-group counter;
`fatal` is set by `log.Fatal`; `renderCalls` counts calls of
`templates.RenderTemplate`; `pushCalls` counts calls of `pushMetrics`;
`pushErrors` lists the errors logged by `main`. -/
structure State where
  now : Nat
  tplChan : List String
  exitChan : List Bool
  renderLatency : List Nat
  requestCount : Nat
  wg : Nat
  fatal : Bool
  renderCalls : Nat
  pushCalls : Nat
  pushErrors : List String
  producer : Producer
  workers : List Worker
  mainPC : MainPC
  deriving DecidableEq

/-- A `makeRequest` goroutine that has not executed any statement yet. -/
def Worker.fresh : Worker :=
  { pc := .start, timeout := none, newCount := 0, oldCount := 0, tpl := "",
    document := none, recvd := [], inserts := [], incs := 0, doneCalls := 0 }

/-- State of the process when `main` reaches line 88: both channels empty,
no observation, counter at zero, no goroutine spawned. -/
def State.initial : State :=
  { now := 0, tplChan := [], exitChan := [], renderLatency := [], requestCount := 0,
    wg := 0, fatal := false, renderCalls := 0, pushCalls := 0, pushErrors := [],
    producer := { pc := .unspawned, count := 0 }, workers := [], mainPC := .spawnProducer }

/-! ## The functions of `cmd/mongo-test.go` -/

/-- First half of `render` (lines 38-42): call `templates.RenderTemplate`; on
error `log.Fatal` (the process exits, nothing is observed, nothing is returned);
otherwise `render` goes on with the payload. -/
def renderCall (env : Env) (s : State) : State × Option String :=
  let s1 := { s with renderCalls := s.renderCalls + 1 }
  match env.renderTemplate s.renderCalls with
  | .error _ => ({ s1 with fatal := true }, none)
  | .ok tpl => (s1, some tpl)

/-- Second half of `render` (lines 43-45): observe the duration of the call
just made in `renderLatency` and return the payload. -/
def renderObserve (env : Env) (s : State) (tpl : String) : State × String :=
  ({ s with renderLatency := s.renderLatency ++ [env.renderNanos (s.renderCalls - 1)] }, tpl)

/-- Function `render` run from entry to exit with no other goroutine in
between: `renderCall`, then, unless it was fatal, `renderObserve`. -/
def render (env : Env) (s : State) : State × Option String :=
  match renderCall env s with
  | (s1, none) => (s1, none)
  | (s1, some tpl) =>
      match renderObserve env s1 tpl with
      | (s2, t) => (s2, some t)

/-- Function `pushMetrics`: return the error of `pusher.Add()`, or nil. -/
def pushMetrics (env : Env) : Option String :=
  match env.pusherAdd with
  | some err => some err
  | none => none

/-- One step of `generateDocuments`. `none` means the goroutine cannot move
(not spawned, returned, or blocked on the send into a full `tplChan`).
* `poll`: the `select`; a receive from `exitChan` is ready only when a sender
  is blocked on it, then the goroutine logs and returns; otherwise `default`.
* `render`: enter `render(name, t)`, the operand of the send, and call
  `templates.RenderTemplate` (`renderCall`).
* `observe tpl`: the rest of `render` (`renderObserve`).
* `send tpl`: `tplChan <- tpl`, possible only while the buffer is not full.
* `incr`: `count++`. -/
def generateDocuments (env : Env) (s : State) : Option State :=
  match s.producer.pc with
  | .unspawned => none
  | .returned => none
  | .poll =>
      match s.exitChan with
      | _ :: rest => some { s with exitChan := rest, producer := { s.producer with pc := .returned } }
      | [] => some { s with producer := { s.producer with pc := .render } }
  | .render =>
      match renderCall env s with
      | (s1, none) => some s1
      | (s1, some tpl) => some { s1 with producer := { s1.producer with pc := .observe tpl } }
  | .observe tpl =>
      match renderObserve env s tpl with
      | (s1, t) => some { s1 with producer := { s1.producer with pc := .send t } }
  | .send tpl =>
      if s.tplChan.length < env.capacity then
        some { s with tplChan := s.tplChan ++ [tpl], producer := { s.producer with pc := .incr } }
      else none
  | .incr =>
      some { s with producer := { pc := .poll, count := s.producer.count + 1 } }

/-- One step of the `makeRequest` goroutine whose local state is `w`; returns
the new shared state and the new local state, `none` when the goroutine cannot
move (returned, or blocked on the receive from an empty `tplChan`).
* `start`: log, register the deferred `waitGroup.Done()`, and
  `timeout := time.After(30 * time.Second)` (line 130).
* `recv`: `tpl := <-t` (line 133).
* `decode`: `mgoBSON.UnmarshalJSON`; on error log and return, which runs the
  deferred `Done()`.
* `loop`: the `select`; if the timer channel is ready (the clock has reached
  `timeout`) log and return (running the deferred `Done()`), otherwise
  `oldCount++`.
* `inc`: `requestCount.Inc()`.
* `insert`: `collection.InsertOne(context.TODO(), document)`. -/
def makeRequest (env : Env) (s : State) (w : Worker) : Option (State × Worker) :=
  match w.pc with
  | .start => some (s, { w with pc := .recv, timeout := some (s.now + env.budget) })
  | .recv =>
      match s.tplChan with
      | [] => none
      | v :: rest => some ({ s with tplChan := rest }, { w with pc := .decode, tpl := v, recvd := w.recvd ++ [v] })
  | .decode =>
      match env.unmarshalJSON w.tpl with
      | .error _ => some ({ s with wg := s.wg - 1 }, { w with pc := .done, doneCalls := w.doneCalls + 1 })
      | .ok d => some (s, { w with pc := .loop, document := some d })
  | .loop =>
      match w.timeout with
      | some d =>
          if d ≤ s.now then
            some ({ s with wg := s.wg - 1 }, { w with pc := .done, doneCalls := w.doneCalls + 1 })
          else some (s, { w with pc := .inc, oldCount := w.oldCount + 1 })
      | none => some (s, { w with pc := .inc, oldCount := w.oldCount + 1 })
  | .inc => some ({ s with requestCount := s.requestCount + 1 }, { w with pc := .insert, incs := w.incs + 1 })
  | .insert =>
      some (s, { w with pc := .loop, inserts := w.inserts ++ [w.document] })
  | .done => none

/-- One step of `main` from line 88 on.
* `spawnProducer`: make both channels and `go generateDocuments(...)`.
* `spawnWorkers i`: the `for` loop: while `i < 10`, `wg.Add(1)` and
  `go makeRequest(...)`; afterwards fall through to `wg.Wait()`.
* `wait`: `wg.Wait()` returns only when the counter is zero.
* `pushMetrics`: call `pushMetrics`, log its error if any.
* `exited`: `main` has returned. -/
def main (env : Env) (s : State) : Option State :=
  match s.mainPC with
  | .spawnProducer =>
      some { s with producer := { s.producer with pc := .poll }, mainPC := .spawnWorkers 0 }
  | .spawnWorkers i =>
      if i < env.workers then
        some { s with wg := s.wg + 1, workers := s.workers ++ [Worker.fresh], mainPC := .spawnWorkers (i + 1) }
      else some { s with mainPC := .wait }
  | .wait => if s.wg = 0 then some { s with mainPC := .pushMetrics } else none
  | .pushMetrics =>
      match pushMetrics env with
      | some err => some { s with pushCalls := s.pushCalls + 1, pushErrors := s.pushErrors ++ [err], mainPC := .exited }
      | none => some { s with pushCalls := s.pushCalls + 1, mainPC := .exited }
  | .exited => none

/-! ## Interleaving semantics -/

/-- Scheduler choices: time passes, or one goroutine executes its next step. -/
inductive Action where
  | tick (d : Nat)
  | main
  | producer
  | worker (i : Nat)
  deriving DecidableEq

/-- The process is over: `log.Fatal` was called or `main` has returned. -/
def State.halted (s : State) : Bool :=
  s.fatal || decide (s.mainPC = .exited)

/-- One scheduled step; `none` when the chosen goroutine cannot move. -/
def step (env : Env) (a : Action) (s : State) : Option State :=
  if s.halted then none
  else
    match a with
    | .tick d => some { s with now := s.now + d }
    | .main => main env s
    | .producer => generateDocuments env s
    | .worker i =>
        match s.workers[i]? with
        | none => none
        | some w =>
            match makeRequest env s w with
            | none => none
            | some (s1, w1) => some { s1 with workers := s1.workers.set i w1 }

/-- Run a schedule from `s`; an action whose goroutine cannot move leaves the
state as it is. -/
def exec (env : Env) (s : State) : List Action → State
  | [] => s
  | a :: rest => exec env ((step env a s).getD s) rest

/-- The state reached from line 88 of `main` under a schedule. -/
def run (env : Env) (sched : List Action) : State :=
  exec env State.initial sched

/-! ## Observables used in the statements -/

/-- Sum of a per-worker quantity over all spawned workers. -/
def sumBy (f : Worker → Nat) (l : List Worker) : Nat :=
  (l.map f).sum

/-- Number of payloads a worker has received from the queue. -/
def Worker.received (w : Worker) : Nat :=
  w.recvd.length

/-- One if the worker has executed `oldCount++` but not yet the
`requestCount.Inc()` of the same iteration, zero otherwise. -/
def Worker.pendingInc (w : Worker) : Nat :=
  if w.pc = .inc then 1 else 0

/-- One while the worker has not returned, zero afterwards. -/
def Worker.running (w : Worker) : Nat :=
  if w.pc = .done then 0 else 1

/-- One while the producer holds a rendered payload it has not yet sent. -/
def ProducerPC.holding : ProducerPC → Nat
  | .send _ => 1
  | _ => 0

/-- One while the producer is inside `render` between the return of a
successful `templates.RenderTemplate` call and `renderLatency.Observe`. -/
def ProducerPC.observing : ProducerPC → Nat
  | .observe _ => 1
  | _ => 0

/-- Whether the `k`-th call of `templates.RenderTemplate` returns without error. -/
def renderOk (env : Env) (k : Nat) : Bool :=
  match env.renderTemplate k with
  | .ok _ => true
  | .error _ => false

/-- Number of calls among the first `k` calls of `templates.RenderTemplate`
that return without error. -/
def okCalls (env : Env) (k : Nat) : Nat :=
  (List.range k).countP (renderOk env)

/-- Payloads rendered by the producer and not yet received by any worker: the
calls of `templates.RenderTemplate` that returned a payload minus the
receives. -/
def inFlight (env : Env) (s : State) : Nat :=
  okCalls env s.renderCalls - sumBy Worker.received s.workers

/-- Sends on `tplChan` that the producer has completed. -/
def pushesCompleted (s : State) : Nat :=
  s.producer.count + (if s.producer.pc = .incr then 1 else 0)

/-! ## `randomInteger` of `pkg/templates/parser.go` -/

/-- Wrap-around of Go's 64-bit `int`. -/
def wrapInt (x : Int) : Int :=
  (x + 2 ^ 63) % 2 ^ 64 - 2 ^ 63

/-- Function `rand.Intn` of Go's `math/rand`, as its documentation states it: it panics
(`none`) when `n <= 0`, and otherwise returns a number of the half-open interval
`[0, n)`; `src` is the outcome of the underlying random source. -/
def randIntn (n : Int) (src : Nat) : Option Int :=
  if n ≤ 0 then none else some ((src : Int) % n)

/-- Function `randomInteger`: `return rand.Intn(n-1) + 1`; `none` when the call panics. -/
def randomInteger (n : Int) (src : Nat) : Option Int :=
  match randIntn (wrapInt (n - 1)) src with
  | none => none
  | some v => some (wrapInt (v + 1))

/-! ## Concrete environments and schedules -/

/-- The constants of `main`; every render yields the payload `doc` in 5 ns,
every payload decodes to itself, the push gateway accepts the metrics. -/
def sampleEnv : Env :=
  mainEnv (fun _ => .ok "doc") (fun _ => 5) (fun p => .ok p) none

/-- As `sampleEnv`, but with two workers instead of ten. -/
def smallEnv : Env :=
  { sampleEnv with workers := 2 }

/-- As `smallEnv`, but no payload decodes. -/
def badJSONEnv : Env :=
  { smallEnv with unmarshalJSON := fun _ => .error "invalid character" }

/-- A complete run with `n` workers: `main` spawns the producer and the
workers and reaches `wg.Wait()`; for each worker in turn the producer renders
(two steps) and sends one payload and the worker starts its timer, receives, decodes and
performs one insert iteration; then 30 seconds pass, every worker sees its timer
ready and returns, and `main` joins, exports the metrics and returns. -/
def fullRun (n : Nat) : List Action :=
  List.replicate (n + 2) Action.main ++
    (List.range n).flatMap (fun i =>
      List.replicate 5 Action.producer ++ List.replicate 6 (Action.worker i)) ++
    [Action.tick 30000000000] ++ (List.range n).map Action.worker ++ [Action.main, Action.main]

/-- The producer fills the one-slot queue and renders once more while no
worker has received anything. -/
def overfillRun : List Action :=
  [.main, .producer, .producer, .producer, .producer, .producer, .producer, .producer,
    .producer]

/-- Worker 0 is spawned and executes its first statement group (up to and
including line 130) while the queue is still empty. -/
def timerFirstRun : List Action :=
  [.main, .main, .worker 0]

/-- After `timerFirstRun` the worker stays blocked on the receive for 30
seconds; only then does the producer deliver a payload, which the worker
receives and decodes before it makes its first deadline check. -/
def lateDeliveryRun : List Action :=
  timerFirstRun ++ [.tick 30000000000, .producer, .producer, .producer, .producer,
    .worker 0, .worker 0, .worker 0]

/-- Both workers of `badJSONEnv` are spawned, the producer delivers one payload
and worker 0 receives it; its next step is the decode. -/
def beforeDecodeRun : List Action :=
  [.main, .main, .main, .producer, .producer, .producer, .producer, .worker 0, .worker 0,
    .worker 1]

/-- Worker 0 is spawned, the producer delivers one payload, and worker 0
starts its timer, receives and decodes: its next step is the first deadline
check of the loop. -/
def atLoopRun : List Action :=
  [.main, .main, .producer, .producer, .producer, .producer, .worker 0, .worker 0, .worker 0]

/-- With two workers and one slot: each worker receives one payload, the
producer refills the slot, renders a fourth payload, observes its duration and
reaches the send. -/
def saturatedRun : List Action :=
  [.main, .main, .main, .main] ++ List.replicate 5 Action.producer ++
    [.worker 0, .worker 0] ++ List.replicate 5 Action.producer ++
    [.worker 1, .worker 1] ++ List.replicate 5 Action.producer ++
    [.producer, .producer, .producer]

/-- The producer is spawned, falls through its `select` and calls
`templates.RenderTemplate`, which returns a payload; `render` has not yet
reached `renderLatency.Observe`. -/
def midRenderRun : List Action :=
  [.main, .producer, .producer]

/-- As `fullRun`, except that before `main` passes `wg.Wait()` the producer
starts one more `render` and its call of `templates.RenderTemplate` returns;
`main` then joins, exports the metrics and returns. -/
def exportRaceRun (n : Nat) : List Action :=
  List.replicate (n + 2) Action.main ++
    (List.range n).flatMap (fun i =>
      List.replicate 5 Action.producer ++ List.replicate 6 (Action.worker i)) ++
    [Action.tick 30000000000] ++ (List.range n).map Action.worker ++
    [Action.producer, Action.producer, Action.main, Action.main]

/-- Local state of worker 0 at the end of `atLoopRun`. -/
def atLoopWorker : Worker :=
  { pc := .loop, timeout := some 30000000000, newCount := 0, oldCount := 0, tpl := "doc",
    document := some "doc", recvd := ["doc"], inserts := [], incs := 0, doneCalls := 0 }

/-- Local state of worker 0 at the end of `timerFirstRun`: blocked on the
receive with its timer already running. -/
def blockedWorker : Worker :=
  { pc := .recv, timeout := some 30000000000, newCount := 0, oldCount := 0, tpl := "",
    document := none, recvd := [], inserts := [], incs := 0, doneCalls := 0 }

/-- Local state of worker 0 at the end of `lateDeliveryRun`: returned at its
first deadline check, without any insert. -/
def expiredWorker : Worker :=
  { pc := .done, timeout := some 30000000000, newCount := 0, oldCount := 0, tpl := "doc",
    document := some "doc", recvd := ["doc"], inserts := [], incs := 0, doneCalls := 1 }

/-- Local state of worker 0 of `badJSONEnv` at the end of `beforeDecodeRun`. -/
def undecodedWorker : Worker :=
  { pc := .decode, timeout := some 30000000000, newCount := 0, oldCount := 0, tpl := "doc",
    document := none, recvd := ["doc"], inserts := [], incs := 0, doneCalls := 0 }

/-- Local state of each worker at the end of `fullRun`. -/
def finishedWorker : Worker :=
  { pc := .done, timeout := some 30000000000, newCount := 0, oldCount := 1, tpl := "doc",
    document := some "doc", recvd := ["doc"], inserts := [some "doc"], incs := 1, doneCalls := 1 }

/-! ## Invariants -/

/-- Facts that hold of the local state of every `makeRequest` goroutine at
every point of every execution. -/
structure WInv (env : Env) (w : Worker) : Prop where
  newCount_zero : w.newCount = 0
  timer : w.timeout = none ↔ w.pc = .start
  recvd_eq : w.recvd = if w.pc = .start ∨ w.pc = .recv then [] else [w.tpl]
  decoded : ∀ d, w.document = some d →
    env.unmarshalJSON w.tpl = .ok d ∧ w.pc ≠ .start ∧ w.pc ≠ .recv ∧ w.pc ≠ .decode
  looping : w.pc = .loop ∨ w.pc = .inc ∨ w.pc = .insert → w.document ≠ none
  failed : w.pc = .done → w.document = none → ∃ e, env.unmarshalJSON w.tpl = .error e
  inserted : ∀ x ∈ w.inserts, x = w.document ∧ x ≠ none
  doneCalls_eq : w.doneCalls = if w.pc = .done then 1 else 0
  oldCount_eq : w.oldCount = w.incs + w.pendingInc
  incs_eq : w.incs = w.inserts.length + (if w.pc = .insert then 1 else 0)

/-- Facts that hold of the whole process at every point of every execution. -/
structure Inv (env : Env) (s : State) : Prop where
  exitChan_empty : s.exitChan = []
  not_returned : s.producer.pc ≠ .returned
  buffer_le : s.tplChan.length ≤ env.capacity
  hist_eq : okCalls env s.renderCalls = s.renderLatency.length + s.producer.pc.observing
  flow : s.renderLatency.length =
    s.tplChan.length + sumBy Worker.received s.workers + s.producer.pc.holding
  pushes : pushesCompleted s = s.tplChan.length + sumBy Worker.received s.workers
  incs_sum : s.requestCount = sumBy (fun w => w.incs) s.workers
  wg_eq : s.wg = sumBy Worker.running s.workers
  locals : ∀ w ∈ s.workers, WInv env w
  spawned : s.workers.length ≤ env.workers
  mainLoop : ∀ i, s.mainPC = .spawnWorkers i → s.workers.length = i
  beforeSpawn : s.mainPC = .spawnProducer → s.workers = [] ∧ s.producer.pc = .unspawned
  joined : s.mainPC = .pushMetrics ∨ s.mainPC = .exited → s.wg = 0
  pushCalls_eq : s.pushCalls = if s.mainPC = .exited then 1 else 0
  calls_eq : s.renderCalls =
    s.renderLatency.length + s.producer.pc.observing + (if s.fatal then 1 else 0)
  fatal_pc : s.fatal = true → s.producer.pc = .render

/-! ## Preservation of the invariants -/

theorem WInv.fresh (env : Env) : WInv env Worker.fresh := by
  constructor <;> simp [Worker.fresh, Worker.pendingInc]

/-- Effect of one `makeRequest` step on the local invariant and on each shared
variable. -/
theorem makeRequest_effect {env : Env} {s s1 : State} {w w1 : Worker}
    (h : makeRequest env s w = some (s1, w1)) (hw : WInv env w) :
    WInv env w1 ∧
    s1.workers = s.workers ∧ s1.exitChan = s.exitChan ∧ s1.producer = s.producer ∧
    s1.renderLatency = s.renderLatency ∧ s1.renderCalls = s.renderCalls ∧
    s1.fatal = s.fatal ∧ s1.mainPC = s.mainPC ∧ s1.now = s.now ∧
    s1.pushCalls = s.pushCalls ∧
    s1.tplChan.length + w1.received = s.tplChan.length + w.received ∧
    w.received ≤ w1.received ∧
    s1.requestCount + w.incs = s.requestCount + w1.incs ∧
    s1.wg = s.wg - (w.running - w1.running) ∧ w1.running ≤ w.running ∧ w.pc ≠ .done := by
  obtain ⟨h1, h2, h3, h4, h5, h6, h7, h8, h9, h10⟩ := hw
  unfold makeRequest at h
  cases hpc : w.pc <;> simp only [hpc] at h
  case done => simp at h
  all_goals (repeat (split at h))
  all_goals (simp only [Option.some.injEq, Prod.mk.injEq, reduceCtorEq] at h)
  all_goals (try (obtain ⟨rfl, rfl⟩ := h))
  all_goals (refine ⟨⟨?_, ?_, ?_, ?_, ?_, ?_, ?_, ?_, ?_, ?_⟩, ?_⟩)
  all_goals (try (simp_all [Worker.pendingInc, Worker.running, Worker.received]; done))
  all_goals (try (simp [Worker.pendingInc, Worker.running, Worker.received, hpc]; omega))
  all_goals (try (intro x hx; have hx7 := h7 x hx; simp_all; done))
  · intro x hx
    have hx7 := h7 x hx
    cases hdoc : w.document with
    | none => rw [hdoc] at hx7; exact absurd hx7.1 hx7.2
    | some d => exact absurd hpc (h4 d hdoc).2.2.2
  · intro x hx
    have hne : w.document ≠ none := h5 (by simp [hpc])
    simp only [List.mem_append, List.mem_singleton] at hx
    rcases hx with hx | hx
    · exact h7 x hx
    · subst hx; exact ⟨rfl, hne⟩

theorem sumBy_nil (f : Worker → Nat) : sumBy f [] = 0 := rfl

theorem sumBy_cons (f : Worker → Nat) (w : Worker) (l : List Worker) :
    sumBy f (w :: l) = f w + sumBy f l := by
  simp [sumBy]

theorem sumBy_snoc (f : Worker → Nat) (l : List Worker) (w : Worker) :
    sumBy f (l ++ [w]) = sumBy f l + f w := by
  simp [sumBy]

theorem sumBy_set (f : Worker → Nat) (w1 : Worker) :
    ∀ (l : List Worker) (i : Nat) (w : Worker), l[i]? = some w →
      sumBy f (l.set i w1) + f w = sumBy f l + f w1
  | [], i, w, h => by simp at h
  | x :: l, 0, w, h => by
      simp at h
      subst h
      simp [sumBy_cons]
      omega
  | x :: l, i + 1, w, h => by
      simp at h
      have ih := sumBy_set f w1 l i w h
      simp [sumBy_cons]
      omega

theorem sumBy_add (f g h : Worker → Nat) :
    ∀ (l : List Worker), (∀ w ∈ l, f w = g w + h w) → sumBy f l = sumBy g l + sumBy h l
  | [], _ => rfl
  | x :: l, hl => by
      have hx := hl x (List.mem_cons_self x l)
      have ih := sumBy_add f g h l (fun w hw => hl w (List.mem_cons_of_mem x hw))
      simp only [sumBy_cons]
      omega

theorem sumBy_eq_zero (f : Worker → Nat) :
    ∀ (l : List Worker), sumBy f l = 0 → ∀ w ∈ l, f w = 0
  | [], _, w, hw => by simp at hw
  | x :: l, h, w, hw => by
      simp only [sumBy_cons] at h
      rcases List.mem_cons.mp hw with rfl | hw
      · omega
      · exact sumBy_eq_zero f l (by omega) w hw

theorem sumBy_le_length (f : Worker → Nat) :
    ∀ (l : List Worker), (∀ w ∈ l, f w ≤ 1) → sumBy f l ≤ l.length
  | [], _ => by simp [sumBy_nil]
  | x :: l, hf => by
      have ih := sumBy_le_length f l (fun w hw => hf w (List.mem_cons_of_mem x hw))
      have hx := hf x (List.mem_cons_self x l)
      simp only [sumBy_cons, List.length_cons]
      omega

theorem okCalls_succ (env : Env) (k : Nat) :
    okCalls env (k + 1) = okCalls env k + (if renderOk env k then 1 else 0) := by
  simp [okCalls, List.range_succ, List.countP_append, List.countP_cons]

theorem Inv.initial (env : Env) : Inv env State.initial := by
  constructor <;>
    simp [State.initial, okCalls, sumBy, pushesCompleted, ProducerPC.holding,
      ProducerPC.observing]

theorem main_inv {env : Env} {s s1 : State} (hi : Inv env s) (hf : s.fatal = false)
    (h : main env s = some s1) : Inv env s1 := by
  obtain ⟨h1, h2, h3, h4, h5, h6, h7, h8, h9, h10, h11, h12, h13, h14, h15, h16⟩ := hi
  unfold main pushMetrics at h
  cases hpc : s.mainPC <;> simp only [hpc] at h
  case exited => simp at h
  case spawnProducer =>
    simp only [Option.some.injEq] at h
    subst h
    obtain ⟨hw, hp⟩ := h12 hpc
    refine ⟨h1, by simp, h3, ?_, ?_, ?_, h7, h8, h9, h10, ?_, by simp, by simp, ?_, ?_,
      by simp [hf]⟩
    · simpa [hp, ProducerPC.observing] using h4
    · simpa [hp, ProducerPC.holding] using h5
    · simpa [hp, pushesCompleted] using h6
    · intro i hi
      simp only [MainPC.spawnWorkers.injEq] at hi
      simp [hw, ← hi]
    · simpa [hpc] using h14
    · simpa [hp, ProducerPC.observing] using h15
  case spawnWorkers i =>
    have hlen := h11 i hpc
    split at h <;> simp only [Option.some.injEq] at h <;> subst h
    · refine ⟨h1, h2, h3, h4, ?_, ?_, ?_, ?_, ?_, ?_, ?_, by simp, by simp, ?_, h15, h16⟩
      · simpa [sumBy_snoc, Worker.received, Worker.fresh] using h5
      · simpa [sumBy_snoc, Worker.received, Worker.fresh, pushesCompleted] using h6
      · simpa [sumBy_snoc, Worker.fresh] using h7
      · simp [sumBy_snoc, Worker.fresh, Worker.running, h8]
      · intro w hw
        rcases List.mem_append.mp hw with hw | hw
        · exact h9 w hw
        · rw [List.mem_singleton.mp hw]; exact WInv.fresh env
      · simp only [List.length_append, List.length_singleton]
        omega
      · intro j hj
        simp only [MainPC.spawnWorkers.injEq] at hj
        simp [hlen, ← hj]
      · simpa [hpc] using h14
    · refine ⟨h1, h2, h3, h4, h5, h6, h7, h8, h9, h10, by simp, by simp, by simp, ?_, h15, h16⟩
      simpa [hpc] using h14
  case wait =>
    split at h
    · rename_i hwg
      simp only [Option.some.injEq] at h
      subst h
      refine ⟨h1, h2, h3, h4, h5, h6, h7, h8, h9, h10, by simp, by simp, ?_, ?_, h15, h16⟩
      · intro _; exact hwg
      · simpa [hpc] using h14
    · simp at h
  case pushMetrics =>
    have hwg := h13 (Or.inl hpc)
    have hpush : s.pushCalls = 0 := by simpa [hpc] using h14
    cases hadd : env.pusherAdd <;> simp only [hadd, Option.some.injEq] at h <;> subst h <;>
      exact ⟨h1, h2, h3, h4, h5, h6, h7, h8, h9, h10, by simp, by simp, fun _ => hwg,
        by simp [hpush], h15, h16⟩

theorem generateDocuments_inv {env : Env} {s s1 : State} (hi : Inv env s) (hf : s.fatal = false)
    (h : generateDocuments env s = some s1) : Inv env s1 := by
  obtain ⟨h1, h2, h3, h4, h5, h6, h7, h8, h9, h10, h11, h12, h13, h14, h15, h16⟩ := hi
  have hnp : s.mainPC ≠ .spawnProducer := fun hm => by
    have := (h12 hm).2
    simp [generateDocuments, this] at h
  simp only [hf, Bool.false_eq_true, if_false, Nat.add_zero] at h15
  unfold generateDocuments at h
  cases hpc : s.producer.pc <;> simp only [hpc] at h
  case unspawned => simp at h
  case returned => simp at h
  case poll =>
    simp only [h1, Option.some.injEq] at h
    subst h
    simp only [hpc, ProducerPC.observing, ProducerPC.holding, pushesCompleted] at h4 h5 h6 h15
    refine ⟨rfl, by simp, h3, ?_, ?_, ?_, h7, h8, h9, h10, h11, ?_, h13, h14, ?_, by simp [hf]⟩
    · simpa [ProducerPC.observing] using h4
    · simpa [ProducerPC.holding] using h5
    · simpa [pushesCompleted] using h6
    · intro hm; exact absurd hm hnp
    · simpa [ProducerPC.observing, hf] using h15
  case render =>
    simp only [hpc, ProducerPC.observing, ProducerPC.holding, pushesCompleted] at h4 h5 h6 h15
    unfold renderCall at h
    cases hr : env.renderTemplate s.renderCalls <;> simp only [hr, Option.some.injEq] at h <;>
      subst h
    · refine ⟨h1, h2, h3, ?_, ?_, ?_, h7, h8, h9, h10, h11, ?_, h13, h14, ?_, fun _ => hpc⟩
      · simpa [okCalls_succ, renderOk, hr, hpc, ProducerPC.observing] using h4
      · simpa [hpc, ProducerPC.holding] using h5
      · simpa [hpc, pushesCompleted] using h6
      · intro hm; exact absurd hm hnp
      · simp [hpc, ProducerPC.observing]; omega
    · refine ⟨h1, by simp, h3, ?_, ?_, ?_, h7, h8, h9, h10, h11, ?_, h13, h14, ?_, by simp [hf]⟩
      · simp [okCalls_succ, renderOk, hr, ProducerPC.observing]; omega
      · simpa [ProducerPC.holding] using h5
      · simpa [pushesCompleted] using h6
      · intro hm; exact absurd hm hnp
      · simp [ProducerPC.observing, hf]; omega
  case observe tpl =>
    simp only [hpc, ProducerPC.observing, ProducerPC.holding, pushesCompleted] at h4 h5 h6 h15
    unfold renderObserve at h
    simp only [Option.some.injEq] at h
    subst h
    refine ⟨h1, by simp, h3, ?_, ?_, ?_, h7, h8, h9, h10, h11, ?_, h13, h14, ?_, by simp [hf]⟩
    · simp [ProducerPC.observing]; omega
    · simp [ProducerPC.holding]; omega
    · simpa [pushesCompleted] using h6
    · intro hm; exact absurd hm hnp
    · simp [ProducerPC.observing, hf]; omega
  case send tpl =>
    simp only [hpc, ProducerPC.observing, ProducerPC.holding, pushesCompleted] at h4 h5 h6 h15
    split at h
    · rename_i hroom
      simp only [Option.some.injEq] at h
      subst h
      refine ⟨h1, by simp, ?_, ?_, ?_, ?_, h7, h8, h9, h10, h11, ?_, h13, h14, ?_, by simp [hf]⟩
      · simp; omega
      · simpa [ProducerPC.observing] using h4
      · simp [ProducerPC.holding]; omega
      · simp [pushesCompleted]; simp at h6; omega
      · intro hm; exact absurd hm hnp
      · simpa [ProducerPC.observing, hf] using h15
    · simp at h
  case incr =>
    simp only [hpc, ProducerPC.observing, ProducerPC.holding, pushesCompleted] at h4 h5 h6 h15
    simp only [Option.some.injEq] at h
    subst h
    refine ⟨h1, by simp, h3, ?_, ?_, ?_, h7, h8, h9, h10, h11, ?_, h13, h14, ?_, by simp [hf]⟩
    · simpa [ProducerPC.observing] using h4
    · simpa [ProducerPC.holding] using h5
    · simp [pushesCompleted]; simp at h6; omega
    · intro hm; exact absurd hm hnp
    · simpa [ProducerPC.observing, hf] using h15

theorem step_inv {env : Env} {a : Action} {s s1 : State} (hi : Inv env s)
    (h : step env a s = some s1) : Inv env s1 := by
  unfold step at h
  split at h
  · simp at h
  rename_i hh
  have hf : s.fatal = false := by
    cases hfat : s.fatal
    · rfl
    · simp [State.halted, hfat] at hh
  cases a with
  | tick d =>
      simp only [Option.some.injEq] at h
      subst h
      obtain ⟨h1, h2, h3, h4, h5, h6, h7, h8, h9, h10, h11, h12, h13, h14, h15, h16⟩ := hi
      exact ⟨h1, h2, h3, h4, h5, h6, h7, h8, h9, h10, h11, h12, h13, h14, h15, h16⟩
  | main => exact main_inv hi hf h
  | producer => exact generateDocuments_inv hi hf h
  | worker i =>
      simp only at h
      cases hw : s.workers[i]? with
      | none => simp [hw] at h
      | some w =>
        simp only [hw] at h
        cases hm : makeRequest env s w with
        | none => simp [hm] at h
        | some p =>
          obtain ⟨s2, w1⟩ := p
          simp only [hm, Option.some.injEq] at h
          subst h
          have hmem : w ∈ s.workers := List.getElem?_mem hw
          obtain ⟨e0, e1, e2, e3, e4, e5, e6, e7, e8, e9, e10, e11, e12, e13, e14, e15⟩ :=
            makeRequest_effect hm (hi.locals w hmem)
          obtain ⟨h1, h2, h3, h4, h5, h6, h7, h8, h9, h10, h11, h12, h13, h14, h15, h16⟩ := hi
          have r1 := sumBy_set Worker.received w1 s.workers i w hw
          have r2 := sumBy_set (fun w => w.incs) w1 s.workers i w hw
          have r3 := sumBy_set Worker.running w1 s.workers i w hw
          simp only at r2
          refine ⟨?_, ?_, ?_, ?_, ?_, ?_, ?_, ?_, ?_, ?_, ?_, ?_, ?_, ?_, ?_, ?_⟩
          · simpa [e2] using h1
          · simpa [e3] using h2
          · simp only; omega
          · simpa [e3, e4, e5] using h4
          · simp only [e1, e3, e4]; omega
          · simp only [pushesCompleted, e1, e3] at h6 ⊢; omega
          · simp only [e1]; omega
          · simp only [e1]; omega
          · intro x hx
            simp only [e1] at hx
            rcases List.mem_or_eq_of_mem_set hx with hx | hx
            · exact h9 x hx
            · rw [hx]; exact e0
          · simpa [e1] using h10
          · intro j hj
            simp only [e7] at hj
            simpa [e1] using h11 j hj
          · intro hj
            simp only [e7] at hj
            have := h12 hj
            rw [this.1] at hmem
            simp at hmem
          · intro hj
            simp only [e7] at hj
            have := h13 hj
            simp only; omega
          · simpa [e7, e9] using h14
          · simpa [e3, e4, e5, e6] using h15
          · simpa [e3, e6] using h16

theorem exec_inv {env : Env} : ∀ (sched : List Action) {s : State}, Inv env s →
    Inv env (exec env s sched)
  | [], _, hi => hi
  | a :: rest, s, hi => by
      cases h : step env a s with
      | none => simpa [exec, h] using exec_inv rest hi
      | some s1 => simpa [exec, h] using exec_inv rest (step_inv hi h)

theorem run_inv (env : Env) (sched : List Action) : Inv env (run env sched) :=
  exec_inv sched (Inv.initial env)

theorem exec_append (env : Env) : ∀ (a b : List Action) (s : State),
    exec env s (a ++ b) = exec env (exec env s a) b
  | [], _, _ => rfl
  | x :: a, b, s => by simpa [exec] using exec_append env a b _

theorem WInv.received_le_one {env : Env} {w : Worker} (hw : WInv env w) : w.received ≤ 1 := by
  have h := hw.recvd_eq
  unfold Worker.received
  split at h <;> simp [h]

theorem received_sum_le {env : Env} {s : State} (hi : Inv env s) :
    sumBy Worker.received s.workers ≤ env.workers :=
  Nat.le_trans (sumBy_le_length Worker.received s.workers
    (fun w hw => (hi.locals w hw).received_le_one)) hi.spawned

/-! ## Frame properties of the steps -/

theorem makeRequest_frame {env : Env} {s s1 : State} {w w1 : Worker}
    (h : makeRequest env s w = some (s1, w1)) :
    s1.workers = s.workers ∧ s1.renderCalls = s.renderCalls ∧ w.pc ≠ .done := by
  unfold makeRequest at h
  cases hpc : w.pc <;> simp only [hpc] at h
  case done => simp at h
  all_goals (repeat (split at h))
  all_goals (simp only [Option.some.injEq, Prod.mk.injEq, reduceCtorEq] at h)
  all_goals (try (obtain ⟨rfl, rfl⟩ := h))
  all_goals (simp)

theorem generateDocuments_frame {env : Env} {s s1 : State}
    (h : generateDocuments env s = some s1) :
    s1.workers = s.workers ∧ s.renderCalls ≤ s1.renderCalls := by
  unfold generateDocuments at h
  cases hpc : s.producer.pc <;> simp only [hpc] at h
  case unspawned => simp at h
  case returned => simp at h
  case render =>
    unfold renderCall at h
    cases hr : env.renderTemplate s.renderCalls <;> simp only [hr, Option.some.injEq] at h <;>
      subst h <;> simp
  case observe tpl =>
    unfold renderObserve at h
    simp only [Option.some.injEq] at h
    subst h
    simp
  all_goals (repeat (split at h))
  all_goals (simp only [Option.some.injEq, reduceCtorEq] at h)
  all_goals (try subst h)
  all_goals (simp)

theorem main_frame {env : Env} {s s1 : State} (h : main env s = some s1) :
    s1.renderCalls = s.renderCalls ∧
      (s1.workers = s.workers ∨ s1.workers = s.workers ++ [Worker.fresh]) := by
  unfold main pushMetrics at h
  cases hpc : s.mainPC <;> simp only [hpc] at h
  case exited => simp at h
  all_goals (repeat (split at h))
  all_goals (simp only [Option.some.injEq, reduceCtorEq] at h)
  all_goals (try subst h)
  all_goals (simp)

theorem step_renderCalls_le {env : Env} {a : Action} {s s1 : State}
    (h : step env a s = some s1) : s.renderCalls ≤ s1.renderCalls := by
  unfold step at h
  split at h
  · simp at h
  cases a with
  | tick d =>
      simp only [Option.some.injEq] at h
      subst h
      exact Nat.le_refl _
  | main => exact Nat.le_of_eq (main_frame h).1.symm
  | producer => exact (generateDocuments_frame h).2
  | worker i =>
      simp only at h
      cases hw : s.workers[i]? with
      | none => simp [hw] at h
      | some w =>
        simp only [hw] at h
        cases hm : makeRequest env s w with
        | none => simp [hm] at h
        | some p =>
          obtain ⟨s2, w1⟩ := p
          simp only [hm, Option.some.injEq] at h
          subst h
          exact Nat.le_of_eq (makeRequest_frame hm).2.1.symm

theorem exec_renderCalls_le (env : Env) : ∀ (sched : List Action) (s : State),
    s.renderCalls ≤ (exec env s sched).renderCalls
  | [], _ => Nat.le_refl _
  | a :: rest, s => by
      cases h : step env a s with
      | none => simpa [exec, h] using exec_renderCalls_le env rest s
      | some s1 =>
          simpa [exec, h] using
            Nat.le_trans (step_renderCalls_le h) (exec_renderCalls_le env rest s1)

theorem step_done_stable {env : Env} {a : Action} {s s1 : State} {i : Nat} {w : Worker}
    (h : step env a s = some s1) (hw : s.workers[i]? = some w) (hpc : w.pc = .done) :
    s1.workers[i]? = some w := by
  unfold step at h
  split at h
  · simp at h
  cases a with
  | tick d =>
      simp only [Option.some.injEq] at h
      subst h
      exact hw
  | main =>
      rcases (main_frame h).2 with e | e
      · rw [e]; exact hw
      · rw [e]
        obtain ⟨hlt, _⟩ := List.getElem?_eq_some.mp hw
        rw [List.getElem?_append_left hlt]
        exact hw
  | producer =>
      rw [(generateDocuments_frame h).1]
      exact hw
  | worker j =>
      simp only at h
      cases hj : s.workers[j]? with
      | none => simp [hj] at h
      | some wj =>
        simp only [hj] at h
        cases hm : makeRequest env s wj with
        | none => simp [hm] at h
        | some p =>
          obtain ⟨s2, w1⟩ := p
          simp only [hm, Option.some.injEq] at h
          subst h
          obtain ⟨e1, _, e3⟩ := makeRequest_frame hm
          have hne : j ≠ i := by
            intro hji
            subst hji
            rw [hw] at hj
            simp only [Option.some.injEq] at hj
            subst hj
            exact e3 hpc
          simp only [e1]
          rw [List.getElem?_set_ne hne]
          exact hw

theorem exec_done_stable (env : Env) {i : Nat} {w : Worker} (hpc : w.pc = .done) :
    ∀ (sched : List Action) (s : State), s.workers[i]? = some w →
      (exec env s sched).workers[i]? = some w
  | [], _, hw => hw
  | a :: rest, s, hw => by
      cases h : step env a s with
      | none => simpa [exec, h] using exec_done_stable env hpc rest s hw
      | some s1 =>
          simpa [exec, h] using exec_done_stable env hpc rest s1 (step_done_stable h hw hpc)

/-- Once the producer has made `workers + capacity + 1` calls of
`RenderTemplate` it is inside the last `render` or at the send with a full
buffer, and at the send it cannot move. -/
theorem producer_stuck {env : Env} {s : State} (hi : Inv env s)
    (hc : s.renderCalls = env.workers + env.capacity + 1) :
    ((∀ tpl, s.producer.pc ≠ .observe tpl) → step env .producer s = none) ∧
      (s.fatal = false → s.tplChan.length = env.capacity ∧
        ∃ tpl, s.producer.pc = .observe tpl ∨ s.producer.pc = .send tpl) := by
  have hsum := received_sum_le hi
  have hflow := hi.flow
  have hcalls := hi.calls_eq
  have hbuf := hi.buffer_le
  cases hf : s.fatal
  · simp only [hf, Bool.false_eq_true, if_false, Nat.add_zero] at hcalls
    cases hpc : s.producer.pc
    case send tpl =>
      simp only [hpc, ProducerPC.holding, ProducerPC.observing] at hflow hcalls
      have hfull : s.tplChan.length = env.capacity := by omega
      refine ⟨fun _ => ?_, fun _ => ⟨hfull, tpl, Or.inr rfl⟩⟩
      simp [step, generateDocuments, hpc, hfull]
    case observe tpl =>
      simp only [hpc, ProducerPC.holding, ProducerPC.observing] at hflow hcalls
      have hfull : s.tplChan.length = env.capacity := by omega
      exact ⟨fun hno => absurd rfl (hno tpl), fun _ => ⟨hfull, tpl, Or.inl rfl⟩⟩
    all_goals (simp only [hpc, ProducerPC.holding, ProducerPC.observing] at hflow hcalls; omega)
  · refine ⟨fun _ => ?_, fun h => by simp at h⟩
    simp [step, State.halted, hf]

/-- Once `renderLatency` holds `workers + capacity + 1` observations the
producer is at the send with a full buffer and cannot move. -/
theorem producer_stuck_observed {env : Env} {s : State} (hi : Inv env s)
    (hc : s.renderLatency.length = env.workers + env.capacity + 1) :
    step env .producer s = none ∧
      ∃ tpl, s.producer.pc = .send tpl ∧ s.tplChan.length = env.capacity := by
  have hsum := received_sum_le hi
  have hflow := hi.flow
  have hbuf := hi.buffer_le
  cases hpc : s.producer.pc
  case send tpl =>
    simp only [hpc, ProducerPC.holding] at hflow
    have hfull : s.tplChan.length = env.capacity := by omega
    refine ⟨?_, tpl, rfl, hfull⟩
    unfold step
    split
    · rfl
    · simp [generateDocuments, hpc, hfull]
  all_goals (simp only [hpc, ProducerPC.holding] at hflow; omega)

theorem step_renderLatency_le {env : Env} {a : Action} {s s1 : State}
    (h : step env a s = some s1) : s.renderLatency.length ≤ s1.renderLatency.length := by
  unfold step at h
  split at h
  · simp at h
  cases a with
  | tick d =>
      simp only [Option.some.injEq] at h
      subst h
      exact Nat.le_refl _
  | main =>
      unfold main pushMetrics at h
      cases hpc : s.mainPC <;> simp only [hpc] at h
      case exited => simp at h
      all_goals (repeat (split at h))
      all_goals (simp only [Option.some.injEq, reduceCtorEq] at h)
      all_goals (try subst h)
      all_goals (simp)
  | producer =>
      unfold generateDocuments at h
      cases hpc : s.producer.pc <;> simp only [hpc] at h
      case unspawned => simp at h
      case returned => simp at h
      case render =>
        unfold renderCall at h
        cases hr : env.renderTemplate s.renderCalls <;>
          simp only [hr, Option.some.injEq] at h <;> subst h <;> simp
      case observe tpl =>
        unfold renderObserve at h
        simp only [Option.some.injEq] at h
        subst h
        simp
      all_goals (repeat (split at h))
      all_goals (simp only [Option.some.injEq, reduceCtorEq] at h)
      all_goals (try subst h)
      all_goals (simp)
  | worker i =>
      simp only at h
      cases hw : s.workers[i]? with
      | none => simp [hw] at h
      | some w =>
        simp only [hw] at h
        cases hm : makeRequest env s w with
        | none => simp [hm] at h
        | some p =>
          obtain ⟨s2, w1⟩ := p
          simp only [hm, Option.some.injEq] at h
          subst h
          unfold makeRequest at hm
          cases hpc : w.pc <;> simp only [hpc] at hm
          case done => simp at hm
          all_goals (repeat (split at hm))
          all_goals (simp only [Option.some.injEq, Prod.mk.injEq, reduceCtorEq] at hm)
          all_goals (try (obtain ⟨rfl, rfl⟩ := hm))
          all_goals (simp)

theorem exec_renderLatency_le (env : Env) : ∀ (sched : List Action) (s : State),
    s.renderLatency.length ≤ (exec env s sched).renderLatency.length
  | [], _ => Nat.le_refl _
  | a :: rest, s => by
      cases h : step env a s with
      | none => simpa [exec, h] using exec_renderLatency_le env rest s
      | some s1 =>
          simpa [exec, h] using
            Nat.le_trans (step_renderLatency_le h) (exec_renderLatency_le env rest s1)

/-! ## Evaluation of the concrete runs -/

set_option maxRecDepth 100000 in
theorem fullRun_sample :
    (run sampleEnv (fullRun 10)).mainPC = .exited ∧
    (run sampleEnv (fullRun 10)).workers.length = 10 ∧
    (∀ w ∈ (run sampleEnv (fullRun 10)).workers, w.pc = .done) ∧
    (run sampleEnv (fullRun 10)).pushCalls = 1 ∧
    (run sampleEnv (fullRun 10)).exitChan = [] ∧
    (run sampleEnv (fullRun 10)).producer = { pc := .poll, count := 10 } := by
  decide

set_option maxRecDepth 100000 in
theorem fullRun_small :
    (∀ w ∈ (run smallEnv (fullRun 2)).workers, w.pc = .done) ∧
    (run smallEnv (fullRun 2)).requestCount = 2 := by
  decide

/-! ## The claims -/

/-- C1 (the code evaluated). `main` has no send on `exitChan`: in every
execution, under every schedule and environment, no value is ever offered on
`exitChan` and `generateDocuments` never takes its "asked to quit" branch. In
the complete run `fullRun 10` all ten workers return, `wg.Wait()` returns,
`pushMetrics` is called once and `main` returns, while the producer is still in
its loop with `count = 10` and nothing was sent on `exitChan`. -/
theorem main_never_sends_on_exitChan :
    (∀ (env : Env) (sched : List Action),
      (run env sched).exitChan = [] ∧ (run env sched).producer.pc ≠ .returned) ∧
    ((run sampleEnv (fullRun 10)).mainPC = .exited ∧
      (run sampleEnv (fullRun 10)).workers.length = 10 ∧
      (∀ w ∈ (run sampleEnv (fullRun 10)).workers, w.pc = .done) ∧
      (run sampleEnv (fullRun 10)).pushCalls = 1 ∧
      (run sampleEnv (fullRun 10)).exitChan = [] ∧
      (run sampleEnv (fullRun 10)).producer = { pc := .poll, count := 10 }) :=
  ⟨fun env sched => ⟨(run_inv env sched).exitChan_empty, (run_inv env sched).not_returned⟩,
    fullRun_sample⟩

/-- C2. Under every schedule (every interleaving of the workers, the producer
and `main`): at every point `requestCount` plus the number of workers that are
between `oldCount++` and `requestCount.Inc()` equals the sum of the workers'
`oldCount`, and `requestCount` equals the number of `Inc()` calls made; hence
once every worker has returned, and in particular once `wg.Wait()` has
returned, `requestCount` equals the sum of the workers' `oldCount`. -/
theorem requestCount_eq_sum_oldCount (env : Env) (sched : List Action) :
    (run env sched).requestCount + sumBy Worker.pendingInc (run env sched).workers =
        sumBy (fun w => w.oldCount) (run env sched).workers ∧
    (run env sched).requestCount = sumBy (fun w => w.incs) (run env sched).workers ∧
    ((∀ w ∈ (run env sched).workers, w.pc = .done) →
      (run env sched).requestCount = sumBy (fun w => w.oldCount) (run env sched).workers) ∧
    ((run env sched).mainPC = .pushMetrics ∨ (run env sched).mainPC = .exited →
      (∀ w ∈ (run env sched).workers, w.pc = .done) ∧
      (run env sched).requestCount = sumBy (fun w => w.oldCount) (run env sched).workers) := by
  have hi := run_inv env sched
  have hsum : sumBy (fun w => w.oldCount) (run env sched).workers =
      sumBy (fun w => w.incs) (run env sched).workers +
        sumBy Worker.pendingInc (run env sched).workers :=
    sumBy_add _ _ _ _ (fun w hw => (hi.locals w hw).oldCount_eq)
  have hdone : (∀ w ∈ (run env sched).workers, w.pc = .done) →
      sumBy Worker.pendingInc (run env sched).workers = 0 := by
    intro hall
    have h0 := sumBy_add Worker.pendingInc (fun _ => 0) (fun _ => 0) (run env sched).workers
      (fun w hw => by simp [Worker.pendingInc, hall w hw])
    have hz : sumBy (fun _ => 0) (run env sched).workers = 0 := by
      simp [sumBy]
    omega
  have hinc := hi.incs_sum
  refine ⟨by omega, hinc, fun hall => ?_, fun hm => ?_⟩
  · have := hdone hall
    omega
  · have hwg := hi.joined hm
    have hrun := hi.wg_eq
    have hall : ∀ w ∈ (run env sched).workers, w.pc = .done := by
      intro w hw
      have := sumBy_eq_zero Worker.running _ (by omega) w hw
      unfold Worker.running at this
      split at this
      · assumption
      · omega
    have := hdone hall
    exact ⟨hall, by omega⟩

/-- Witness of C2: in the complete two-worker run every worker has returned and
the counter (2) equals the sum of the `oldCount`s. -/
theorem requestCount_eq_sum_oldCount_witness :
    (∀ w ∈ (run smallEnv (fullRun 2)).workers, w.pc = .done) ∧
    (run smallEnv (fullRun 2)).requestCount =
      sumBy (fun w => w.oldCount) (run smallEnv (fullRun 2)).workers :=
  ⟨fullRun_small.1, (requestCount_eq_sum_oldCount smallEnv (fullRun 2)).2.2.1 fullRun_small.1⟩

set_option maxRecDepth 100000 in
/-- C3 (counterexample). After `midRenderRun` one call of
`templates.RenderTemplate` has returned without error and `renderLatency` holds
no observation: the producer is inside `render`, before `Observe`. After
`exportRaceRun 10` `main` has exported the metrics and returned while eleven
calls have returned without error and `renderLatency` holds ten
observations. -/
theorem renderLatency_lags_successful_call :
    (run sampleEnv midRenderRun).renderCalls = 1 ∧ okCalls sampleEnv 1 = 1 ∧
    (run sampleEnv midRenderRun).renderLatency = [] ∧
    (run sampleEnv midRenderRun).producer.pc = .observe "doc" ∧
    (run sampleEnv (exportRaceRun 10)).mainPC = .exited ∧
    (run sampleEnv (exportRaceRun 10)).pushCalls = 1 ∧
    (run sampleEnv (exportRaceRun 10)).renderCalls = 11 ∧ okCalls sampleEnv 11 = 11 ∧
    (run sampleEnv (exportRaceRun 10)).renderLatency.length = 10 := by
  decide

/-- C3 (amended). At every point of every execution the number of
observations in `renderLatency`, plus one while the producer is inside `render`
between the return of a successful `templates.RenderTemplate` call and
`Observe`, equals the number of calls of `templates.RenderTemplate` made so far
that returned without error. For `render` run from entry to exit, in any state:
a successful call returns the payload and appends exactly one observation; a
failing call returns no payload, records no observation and ends the process
(`log.Fatal`), so that no goroutine takes another step and nothing is pushed. -/
theorem renderLatency_counts_successful_renders (env : Env) (sched : List Action) (s : State) :
    (run env sched).renderLatency.length + (run env sched).producer.pc.observing =
        okCalls env (run env sched).renderCalls ∧
    (match env.renderTemplate s.renderCalls with
      | .ok tpl =>
          (render env s).2 = some tpl ∧
          (render env s).1.renderLatency = s.renderLatency ++ [env.renderNanos s.renderCalls] ∧
          (render env s).1.fatal = s.fatal
      | .error _ =>
          (render env s).2 = none ∧ (render env s).1.renderLatency = s.renderLatency ∧
          (render env s).1.tplChan = s.tplChan ∧
          ∀ a, step env a (render env s).1 = none) := by
  refine ⟨(run_inv env sched).hist_eq.symm, ?_⟩
  cases hr : env.renderTemplate s.renderCalls <;>
    simp [render, renderCall, renderObserve, hr, step, State.halted]

/-- C4 (the code evaluated). The buffer of `tplChan` never holds more than
`capacity` payloads, but `generateDocuments` renders the next payload before it
attempts the send, so the payloads rendered and not yet received number up to
`capacity + 1`: with the one-slot queue of `main`, after `overfillRun` two
payloads are rendered (one in the buffer, one held by the producer at the send)
and none is received. -/
theorem inFlight_exceeds_capacity :
    (∀ (env : Env) (sched : List Action),
      (run env sched).tplChan.length ≤ env.capacity ∧
      inFlight env (run env sched) ≤ env.capacity + 1) ∧
    (sampleEnv.capacity = 1 ∧ inFlight sampleEnv (run sampleEnv overfillRun) = 2 ∧
      (run sampleEnv overfillRun).renderLatency.length = 2 ∧
      sumBy Worker.received (run sampleEnv overfillRun).workers = 0 ∧
      (run sampleEnv overfillRun).tplChan = ["doc"] ∧
      (run sampleEnv overfillRun).producer.pc = .send "doc") := by
  refine ⟨fun env sched => ?_, by decide⟩
  have hi := run_inv env sched
  have hflow := hi.flow
  have hbuf := hi.buffer_le
  have hhist := hi.hist_eq
  have hhold : (run env sched).producer.pc.holding + (run env sched).producer.pc.observing ≤ 1 := by
    cases (run env sched).producer.pc <;> simp [ProducerPC.holding, ProducerPC.observing]
  refine ⟨hbuf, ?_⟩
  unfold inFlight
  omega

/-- C5. Whenever a worker is at the head of its loop, its timer exists and it
holds a decoded document. If the timer channel is ready at the check
(`d ≤ now`), that step logs and returns (running the deferred `Done()`):
`requestCount`, `oldCount`, `incs` and `inserts` are unchanged. Otherwise the
iteration consists of exactly three steps, whatever the other goroutines do in
between (`sb`, `sc` are the shared states at the second and third step):
`oldCount++`, then `requestCount.Inc()`, then one `InsertOne` of the held
document, after which the worker is back at the head of the loop. -/
theorem makeRequest_loop_iteration (env : Env) (sched : List Action) (i : Nat) (w : Worker)
    (hw : (run env sched).workers[i]? = some w) (hpc : w.pc = .loop) :
    ∃ d doc, w.timeout = some d ∧ w.document = some doc ∧
      (d ≤ (run env sched).now →
        makeRequest env (run env sched) w =
          some ({ (run env sched) with wg := (run env sched).wg - 1 },
            { w with pc := .done, doneCalls := w.doneCalls + 1 })) ∧
      (¬ d ≤ (run env sched).now → ∀ sb sc : State,
        makeRequest env (run env sched) w =
          some (run env sched, { w with pc := .inc, oldCount := w.oldCount + 1 }) ∧
        makeRequest env sb { w with pc := .inc, oldCount := w.oldCount + 1 } =
          some ({ sb with requestCount := sb.requestCount + 1 },
            { w with pc := .insert, oldCount := w.oldCount + 1, incs := w.incs + 1 }) ∧
        makeRequest env sc { w with pc := .insert, oldCount := w.oldCount + 1, incs := w.incs + 1 } =
          some (sc, { w with
            pc := .loop, oldCount := w.oldCount + 1, incs := w.incs + 1, inserts := w.inserts ++ [some doc] })) := by
  have hwi := (run_inv env sched).locals w (List.getElem?_mem hw)
  have htimer : w.timeout ≠ none := fun h => by
    have := hwi.timer.mp h
    rw [hpc] at this
    cases this
  have hdoc : w.document ≠ none := hwi.looping (Or.inl hpc)
  obtain ⟨d, hd⟩ := Option.ne_none_iff_exists'.mp htimer
  obtain ⟨doc, hdc⟩ := Option.ne_none_iff_exists'.mp hdoc
  refine ⟨d, doc, hd, hdc, fun hle => ?_, fun hgt sb sc => ⟨?_, ?_, ?_⟩⟩
  · simp [makeRequest, hpc, hd, hle]
  · simp [makeRequest, hpc, hd, hgt]
  · simp [makeRequest]
  · simp [makeRequest, hdc]

/-- Witness of C5: after `atLoopRun` worker 0 is at the head of its loop with
a timer and a decoded document. -/
theorem makeRequest_loop_iteration_witness :
    (run sampleEnv atLoopRun).workers[0]? = some atLoopWorker ∧ atLoopWorker.pc = .loop ∧
    ∃ d doc, atLoopWorker.timeout = some d ∧ atLoopWorker.document = some doc :=
  ⟨by decide, by decide,
    (makeRequest_loop_iteration sampleEnv atLoopRun 0 atLoopWorker (by decide) (by decide)).imp
      fun _ h => h.imp fun _ h => ⟨h.1, h.2.1⟩⟩

/-- C6 (counterexample). After `timerFirstRun` worker 0 has its timer running
(ready at 30 s) although the queue is empty and it has received and decoded
nothing. After `lateDeliveryRun`, in which the first payload arrives only when
30 s have passed, the worker receives and decodes it and returns at its first
deadline check without a single insert: the time spent blocked on the receive
counted against the budget. -/
theorem timer_runs_before_first_payload :
    (run sampleEnv timerFirstRun).tplChan = [] ∧
    (run sampleEnv timerFirstRun).workers = [blockedWorker] ∧
    blockedWorker.timeout = some 30000000000 ∧ blockedWorker.recvd = [] ∧
    blockedWorker.document = none ∧
    (run sampleEnv lateDeliveryRun).now = 30000000000 ∧
    (run sampleEnv lateDeliveryRun).workers = [expiredWorker] ∧
    expiredWorker.pc = .done ∧ expiredWorker.document = some "doc" ∧
    expiredWorker.inserts = [] ∧ expiredWorker.oldCount = 0 := by
  decide

/-- C6 (amended). In every execution of `makeRequest` the order is: (1) start
the deadline timer, (2) obtain the first payload, (3) decode it. The timer is
missing exactly while the worker has not executed its first step; a worker that
has received a payload has its timer running, and a worker that holds a decoded
document has received a payload. The first step sets the deadline to the
current instant plus the budget, and no later step changes it. -/
theorem timer_precedes_receive (env : Env) (sched : List Action) (w : Worker)
    (hw : w ∈ (run env sched).workers) :
    (w.timeout = none ↔ w.pc = .start) ∧
    (w.recvd ≠ [] → w.timeout ≠ none) ∧
    (w.document ≠ none → w.recvd ≠ []) ∧
    (∀ s : State, w.pc = .start →
      makeRequest env s w =
        some (s, { w with pc := .recv, timeout := some (s.now + env.budget) })) ∧
    (∀ (s s1 : State) (w1 : Worker), w.pc ≠ .start →
      makeRequest env s w = some (s1, w1) → w1.timeout = w.timeout) := by
  have hwi := (run_inv env sched).locals w hw
  obtain ⟨h1, h2, h3, h4, h5, h6, h7, h8, h9, h10⟩ := hwi
  refine ⟨h2, ?_, ?_, ?_, ?_⟩
  · intro hr ht
    have hs := h2.mp ht
    simp [hs] at h3
    exact hr h3
  · intro hd
    obtain ⟨d, hdd⟩ := Option.ne_none_iff_exists'.mp hd
    obtain ⟨_, n1, n2, _⟩ := h4 d hdd
    simp [n1, n2] at h3
    simp [h3]
  · intro s hs
    simp [makeRequest, hs]
  · intro s s1 w1 hne h
    unfold makeRequest at h
    cases hpc : w.pc <;> simp only [hpc] at h
    case start => exact absurd hpc hne
    case done => simp at h
    all_goals (repeat (split at h))
    all_goals (simp only [Option.some.injEq, Prod.mk.injEq, reduceCtorEq] at h)
    all_goals (try (obtain ⟨rfl, rfl⟩ := h))
    all_goals (simp)

/-- Witness of C6 (amended): the worker blocked on the receive after
`timerFirstRun`. -/
theorem timer_precedes_receive_witness :
    blockedWorker ∈ (run sampleEnv timerFirstRun).workers ∧
    (blockedWorker.timeout = none ↔ blockedWorker.pc = .start) :=
  ⟨by decide, (timer_precedes_receive sampleEnv timerFirstRun blockedWorker (by decide)).1⟩

theorem le_sumBy_of_getElem? (f : Worker → Nat) (l : List Worker) (i : Nat) (w : Worker)
    (h : l[i]? = some w) : f w ≤ sumBy f l := by
  induction l generalizing i with
  | nil => simp at h
  | cons x l ih =>
      cases i with
      | zero =>
          simp at h
          subst h
          simp [sumBy_cons]
      | succ j =>
          simp at h
          have := ih j h
          simp only [sumBy_cons]
          omega

/-- C7. Whenever the process is running and a worker is about to decode a
payload that `UnmarshalJSON` rejects, its next step exists and is its last: it
returns with no insert issued and no `requestCount.Inc()` made, having called
`Done()` exactly once (the wait-group counter drops by one); that step leaves
`requestCount`, the queue, the producer and every other worker as they were,
and under every continuation the local state of the failed worker stays as it
is (no further receive, insert, increment or `Done()`). -/
theorem decode_failure_is_contained (env : Env) (sched : List Action) (i : Nat) (w : Worker)
    (e : String) (hw : (run env sched).workers[i]? = some w) (hpc : w.pc = .decode)
    (herr : env.unmarshalJSON w.tpl = .error e) (hlive : (run env sched).halted = false) :
    ∃ s1 w1, step env (.worker i) (run env sched) = some s1 ∧ s1.workers[i]? = some w1 ∧
      w1.pc = .done ∧ w1.inserts = [] ∧ w1.incs = 0 ∧ w1.oldCount = 0 ∧ w1.doneCalls = 1 ∧
      w1.recvd = [w.tpl] ∧
      s1.wg + 1 = (run env sched).wg ∧
      s1.requestCount = (run env sched).requestCount ∧
      s1.tplChan = (run env sched).tplChan ∧
      s1.producer = (run env sched).producer ∧
      (∀ j, j ≠ i → s1.workers[j]? = (run env sched).workers[j]?) ∧
      (∀ rest, (exec env s1 rest).workers[i]? = some w1) := by
  have hi := run_inv env sched
  obtain ⟨h1, h2, h3, h4, h5, h6, h7, h8, h9, h10⟩ := hi.locals w (List.getElem?_mem hw)
  obtain ⟨hlt, _⟩ := List.getElem?_eq_some.mp hw
  have hdoc : w.document = none := by
    cases hd : w.document with
    | none => rfl
    | some d => exact absurd hpc (h4 d hd).2.2.2
  have hins : w.inserts = [] := by
    rw [List.eq_nil_iff_forall_not_mem]
    intro x hx
    have := h7 x hx
    rw [hdoc] at this
    exact this.2 this.1
  have hincs : w.incs = 0 := by simpa [hins, hpc] using h10
  have hold : w.oldCount = 0 := by simpa [hincs, Worker.pendingInc, hpc] using h9
  have hdc : w.doneCalls = 0 := by simpa [hpc] using h8
  have hrec : w.recvd = [w.tpl] := by simpa [hpc] using h3
  have hwg : 1 ≤ (run env sched).wg := by
    have := le_sumBy_of_getElem? Worker.running _ i w hw
    have hrun : w.running = 1 := by simp [Worker.running, hpc]
    have := hi.wg_eq
    omega
  refine ⟨{ (run env sched) with
      wg := (run env sched).wg - 1,
      workers := (run env sched).workers.set i { w with pc := .done, doneCalls := w.doneCalls + 1 } },
    { w with pc := .done, doneCalls := w.doneCalls + 1 }, ?_, ?_, rfl, hins, hincs, hold,
    by simp [hdc], hrec, ?_, rfl, rfl, rfl, ?_, ?_⟩
  · simp [step, hlive, hw, makeRequest, hpc, herr]
  · simp [List.getElem?_set_self hlt]
  · simp only
    omega
  · intro j hj
    simp [List.getElem?_set_ne (Ne.symm hj)]
  · intro rest
    exact exec_done_stable env rfl rest _ (by simp [List.getElem?_set_self hlt])

/-- Witness of C7: worker 0 of `badJSONEnv` after `beforeDecodeRun`. -/
theorem decode_failure_is_contained_witness :
    (run badJSONEnv beforeDecodeRun).workers[0]? = some undecodedWorker ∧
    undecodedWorker.pc = .decode ∧
    badJSONEnv.unmarshalJSON undecodedWorker.tpl = .error "invalid character" ∧
    (run badJSONEnv beforeDecodeRun).halted = false ∧
    ∃ s1, step badJSONEnv (.worker 0) (run badJSONEnv beforeDecodeRun) = some s1 :=
  ⟨by decide, by decide, rfl, by decide,
    (decode_failure_is_contained badJSONEnv beforeDecodeRun 0 undecodedWorker "invalid character"
      (by decide) (by decide) rfl (by decide)).imp fun _ h => h.elim fun _ h => h.1⟩

/-- C8. In every execution every worker has received at most one payload and
`newCount` is 0 at every point; a worker that has returned has received
exactly one payload; and every document passed to `InsertOne` is the document
that `UnmarshalJSON` produced from that one payload. -/
theorem worker_receives_exactly_once (env : Env) (sched : List Action) (w : Worker)
    (hw : w ∈ (run env sched).workers) :
    w.recvd.length ≤ 1 ∧ w.newCount = 0 ∧
    (w.pc = .done → w.recvd.length = 1 ∧ w.newCount = 0) ∧
    (∀ x ∈ w.inserts, ∃ p d, w.recvd = [p] ∧ env.unmarshalJSON p = .ok d ∧ x = some d) := by
  have hwi := (run_inv env sched).locals w hw
  have hle := hwi.received_le_one
  obtain ⟨h1, h2, h3, h4, h5, h6, h7, h8, h9, h10⟩ := hwi
  refine ⟨hle, h1, fun hd => ⟨by simp [h3, hd], h1⟩, fun x hx => ?_⟩
  obtain ⟨hxd, hxn⟩ := h7 x hx
  obtain ⟨d, hd⟩ := Option.ne_none_iff_exists'.mp hxn
  have hdoc : w.document = some d := by rw [← hxd, hd]
  obtain ⟨hok, n1, n2, _⟩ := h4 d hdoc
  exact ⟨w.tpl, d, by simp [h3, n1, n2], hok, hd⟩

set_option maxRecDepth 100000 in
/-- Witness of C8: a worker of the complete two-worker run. -/
theorem worker_receives_exactly_once_witness :
    finishedWorker ∈ (run smallEnv (fullRun 2)).workers ∧ finishedWorker.recvd.length ≤ 1 :=
  ⟨by decide, (worker_receives_exactly_once smallEnv (fullRun 2) finishedWorker (by decide)).1⟩

theorem wrapInt_lt (x : Int) : wrapInt x < 2 ^ 63 := by
  unfold wrapInt
  omega

theorem wrapInt_of_small (x : Int) (h0 : 0 ≤ x) (h1 : x < 2 ^ 63) : wrapInt x = x := by
  unfold wrapInt
  omega

/-- C9 (the code evaluated). `randomInteger` calls `rand.Intn(n-1)`: for
`n = 1` the argument is 0 and the call panics; for `n = 2` the only outcome is
1; and for no positive `n` and no outcome of the random source is `n` itself
returned. -/
theorem randomInteger_never_returns_n :
    (∀ src : Nat, randomInteger 1 src = none) ∧
    (∀ src : Nat, randomInteger 2 src = some 1) ∧
    (∀ n src : Nat, randomInteger ((n : Int) + 1) src ≠ some ((n : Int) + 1)) := by
  refine ⟨fun src => ?_, fun src => ?_, fun n src h => ?_⟩
  · simp [randomInteger, randIntn, wrapInt]
  · simp [randomInteger, randIntn, wrapInt]
  · unfold randomInteger randIntn at h
    simp only [add_sub_cancel_right] at h
    split at h
    · simp at h
    · rename_i v hv
      split at hv
      · simp at hv
      · rename_i hpos
        simp only [Option.some.injEq] at hv h
        have hv0 : 0 ≤ (src : Int) % wrapInt (n : Int) := Int.emod_nonneg _ (by omega)
        have hv1 : (src : Int) % wrapInt (n : Int) < wrapInt (n : Int) :=
          Int.emod_lt_of_pos _ (by omega)
        rw [hv] at hv0 hv1
        have hlt := wrapInt_lt (v + 1)
        have hn := wrapInt_lt (n : Int)
        by_cases hsmall : (n : Int) < 2 ^ 63
        · have e1 := wrapInt_of_small (n : Int) (by omega) hsmall
          have e2 := wrapInt_of_small (v + 1) (by omega) (by omega)
          omega
        · omega

theorem calls_le_of_inv {env : Env} {s : State} (hi : Inv env s) :
    pushesCompleted s ≤ env.workers + env.capacity ∧
    s.renderCalls ≤ env.workers + env.capacity + 1 ∧
    s.renderLatency.length ≤ env.workers + env.capacity + 1 := by
  have hsum := received_sum_le hi
  have hflow := hi.flow
  have hcalls := hi.calls_eq
  have hbuf := hi.buffer_le
  have hpush := hi.pushes
  have hhold : s.producer.pc.holding + s.producer.pc.observing ≤ 1 := by
    cases s.producer.pc <;> simp [ProducerPC.holding, ProducerPC.observing]
  refine ⟨by omega, ?_, by omega⟩
  cases hf : s.fatal
  · simp only [hf, Bool.false_eq_true, if_false, Nat.add_zero] at hcalls
    omega
  · have hpc := hi.fatal_pc hf
    simp only [hpc, ProducerPC.holding, ProducerPC.observing] at hflow hcalls
    simp only [hf, if_true] at hcalls
    omega

/-- C10. With `workers` workers and a queue of `capacity` slots, in every
execution the producer completes at most `workers + capacity` sends and makes
at most `workers + capacity + 1` calls of `RenderTemplate`, so `renderLatency`
holds at most `workers + capacity + 1` observations (12 for the constants of
`main`). Once that many calls are made, no further call is ever made and the
producer (unless the last call was fatal) faces a full buffer, finishing its
last `render` or at the send, where it takes no further step. Once that many
renders are complete (observed), the producer is at the send with a full
buffer, and under every continuation it takes no further step. The producer
never returns. -/
theorem producer_renders_bounded (env : Env) (sched : List Action) :
    pushesCompleted (run env sched) ≤ env.workers + env.capacity ∧
    (run env sched).renderCalls ≤ env.workers + env.capacity + 1 ∧
    (run env sched).renderLatency.length ≤ env.workers + env.capacity + 1 ∧
    (env.workers = 10 → env.capacity = 1 →
      (run env sched).renderCalls ≤ 12 ∧ (run env sched).renderLatency.length ≤ 12) ∧
    ((run env sched).renderCalls = env.workers + env.capacity + 1 →
      ((run env sched).fatal = false →
        (run env sched).tplChan.length = env.capacity ∧
        ∃ tpl, (run env sched).producer.pc = .observe tpl ∨
          (run env sched).producer.pc = .send tpl) ∧
      ∀ rest, (exec env (run env sched) rest).renderCalls = env.workers + env.capacity + 1 ∧
        ((∀ tpl, (exec env (run env sched) rest).producer.pc ≠ .observe tpl) →
          step env .producer (exec env (run env sched) rest) = none)) ∧
    ((run env sched).renderLatency.length = env.workers + env.capacity + 1 →
      (∃ tpl, (run env sched).producer.pc = .send tpl ∧
        (run env sched).tplChan.length = env.capacity) ∧
      ∀ rest, step env .producer (exec env (run env sched) rest) = none) ∧
    (run env sched).producer.pc ≠ .returned := by
  have hi := run_inv env sched
  obtain ⟨b1, b2, b3⟩ := calls_le_of_inv hi
  refine ⟨b1, b2, b3, fun hn hc => ⟨by omega, by omega⟩,
    fun hc => ⟨(producer_stuck hi hc).2, fun rest => ?_⟩,
    fun hc => ⟨(producer_stuck_observed hi hc).2, fun rest => ?_⟩, hi.not_returned⟩
  · have hi2 : Inv env (exec env (run env sched) rest) := exec_inv rest hi
    have hmono := exec_renderCalls_le env rest (run env sched)
    have hb := (calls_le_of_inv hi2).2.1
    have heq : (exec env (run env sched) rest).renderCalls = env.workers + env.capacity + 1 := by
      omega
    exact ⟨heq, (producer_stuck hi2 heq).1⟩
  · have hi2 : Inv env (exec env (run env sched) rest) := exec_inv rest hi
    have hmono := exec_renderLatency_le env rest (run env sched)
    have hb := (calls_le_of_inv hi2).2.2
    exact (producer_stuck_observed hi2 (by omega)).1

/-- Witness of C10: with two workers and one slot, `saturatedRun` reaches the
fourth call of `RenderTemplate` and its observation. -/
theorem producer_renders_bounded_witness :
    (run smallEnv saturatedRun).renderCalls = smallEnv.workers + smallEnv.capacity + 1 ∧
    (run smallEnv saturatedRun).renderLatency.length =
      smallEnv.workers + smallEnv.capacity + 1 ∧
    (∀ rest, (exec smallEnv (run smallEnv saturatedRun) rest).renderCalls =
      smallEnv.workers + smallEnv.capacity + 1) ∧
    ∀ rest, step smallEnv .producer (exec smallEnv (run smallEnv saturatedRun) rest) = none :=
  ⟨by decide, by decide,
    fun rest =>
      (((producer_renders_bounded smallEnv saturatedRun).2.2.2.2.1 (by decide)).2 rest).1,
    ((producer_renders_bounded smallEnv saturatedRun).2.2.2.2.2.1 (by decide)).2⟩

end MongoTestHarness
